import Mathlib

/-!
# Stardust — a C++11 particle engine generator: shallow embedding

This file embeds the policy-composition and dispatch core of the Stardust
repository (files `stated_policies.hpp`, `shared_policy.hpp`, `particle.hpp`,
`basic_engines.hpp`) and proves / refutes the specification claims about it.

Modelling conventions:
* Particle payloads (`data_t`) and policy member state are instantiated at
  `Int`; the C++ code is generic over them and no claim depends on the
  concrete payload type.
* A C++ policy object (a callable, possibly with member state) is a record
  `Policy α`: `invoke` is `operator()(α&)` acting on the member state and the
  payload, `notifyFn` is `Some f` exactly when the call `policy(state_change)`
  is valid on the policy (`tml::is_valid_call<P, sdst::state_change>` in the
  source), and `st` is the current member state.
* Operations additionally return a `List Event` trace recording the observable
  calls they perform, so that ordering and multiplicity claims can be stated.
* The automatic engine's hooks take `engine_t&` in the source; they are
  modelled as functions on the engine's observable core (scene, manual engine
  and run condition).  A run predicate takes `const engine_t&`, whose only
  const accessor is `scene()`, so it is modelled as a predicate on the scene.
* The potentially unbounded `do … while` loop of `start()` is modelled with
  explicit fuel; `none` means the loop was still running when the fuel ran out.
-/

namespace Stardust

/-- `sdst::state_change` (`stated_policies.hpp`).  The C++ enumerators are
`local` and `global`; they are capitalised here because `local` is a Lean
keyword. -/
inductive state_change where
  | Local
  | Global
  deriving DecidableEq

/-- A policy value: a C++ callable object with member state.  `invoke` models
`operator()` on a payload of type `α` (receiving the payload by mutable
reference, hence returning the new payload), `notifyFn` models the optional
`operator()(sdst::state_change)` overload (present iff the policy is
"stated"), `st` is the current member state. -/
structure Policy (α : Type) where
  invoke : Int → α → Int × α
  notifyFn : Option (Int → state_change → Int)
  st : Int

/-- A policy is stated iff `policy(sdst::state_change)` is a valid call,
i.e. `tml::is_valid_call<POLICY, sdst::state_change>` in the source. -/
def Policy.stated {α : Type} (p : Policy α) : Bool :=
  p.notifyFn.isSome

/-- `sdst::erase_state<POLICY>` (`stated_policies.hpp`): owns one policy value
(`POLICY _policy`), forwarding calls to it. -/
structure erase_state (α : Type) where
  _policy : Policy α

/-- The template `operator()(ARGS&&...)` of `erase_state`: forwards a payload
call to the underlying policy, which may change its own member state and the
payload. -/
def erase_state.call {α : Type} (w : erase_state α) (d : α) : erase_state α × α :=
  let r := w._policy.invoke w._policy.st d
  (⟨{ w._policy with st := r.1 }⟩, r.2)

/-- The `operator()(sdst::state_change)` overload of `erase_state`: dispatches
through `update_request<POLICY>`.  The primary specialization (chosen when
`tml::is_valid_call<P, sdst::state_change>` holds, i.e. `notifyFn` is present)
forwards `policy(change)`; the `false_type` specialization does nothing. -/
def erase_state.notify {α : Type} (w : erase_state α) (c : state_change) : erase_state α :=
  match w._policy.notifyFn with
  | some f => ⟨{ w._policy with st := f w._policy.st c }⟩
  | none => w

/-- Observable calls performed by the engine core.  `evo_invoke d` /
`draw_invoke d` record a payload call carrying the payload passed;
`evo_notify` / `draw_notify` record a `state_change` call on a particle's
wrapped policy; `scene_notify` the `state_change` call on the collection
drawing policy; `scene_draw` the collection draw call; the `hook_*` events the
automatic engine's stage actions; `check_cond b` an evaluation of the running
condition with result `b`. -/
inductive Event where
  | evo_invoke (d : Int)
  | evo_notify (c : state_change)
  | draw_invoke (d : Int)
  | draw_notify (c : state_change)
  | scene_notify (c : state_change)
  | scene_draw
  | hook_before_update
  | hook_before_draw
  | hook_before_next
  | check_cond (b : Bool)
  deriving DecidableEq

/-- `sdst::particle<DATA, EVOLUTION_POLICY, DRAW_POLICY>` (`particle.hpp`):
one payload plus the two policies, each stored by value inside an
`erase_state` wrapper. -/
structure particle where
  _data : Int
  _evolution_policy : erase_state Int
  _draw_policy : erase_state Int

/-- The non-const `particle::update()` (`particle.hpp`, lines 73–76): its body
is exactly `_evolution_policy( _data );` — it invokes the evolution policy on
the payload and performs no other call.  (The `state_change` dispatches appear
only in the const overload, lines 89–98.) -/
def particle.update (p : particle) : particle × List Event :=
  let r := p._evolution_policy.call p._data
  ({ p with _data := r.2, _evolution_policy := r.1 }, [Event.evo_invoke p._data])

/-- The non-const `particle::draw()` (`particle.hpp`, lines 65–68): its body is
`_draw_policy( _data );`.  In this overload `_data` is bound by mutable
reference, so the draw policy may change its own state and the payload. -/
def particle.draw (p : particle) : particle × List Event :=
  let r := p._draw_policy.call p._data
  ({ p with _data := r.2, _draw_policy := r.1 }, [Event.draw_invoke p._data])

/-- The const `particle::draw()` overload (`particle.hpp`, lines 81–84): every
member is const, so the call can read the payload but nothing in the particle
can change; only the trace of the call is observable. -/
def particle.draw_const (p : particle) : List Event :=
  [Event.draw_invoke p._data]

/-- `sdst::basic_manual_engine<SCENE, DRAW_POLICY>` (`basic_engines.hpp`):
a scene (ordered collection of particles, `SCENE` instantiated at
`List particle`) plus the collection drawing policy wrapped in `erase_state`. -/
structure basic_manual_engine where
  _scene : List particle
  _drawing_policy : erase_state (List particle)

/-- `basic_manual_engine::step()` (`basic_engines.hpp`, lines 63–76):
`for( auto& particle : _scene ) particle.update();` followed by
`_drawing_policy( sdst::state_change::global );`.  Each particle's update
touches only that particle, so the sequential loop is the element-wise map. -/
def basic_manual_engine.step (e : basic_manual_engine) : basic_manual_engine × List Event :=
  let upd := e._scene.map particle.update
  ({ _scene := upd.map Prod.fst,
     _drawing_policy := e._drawing_policy.notify state_change.Global },
   (upd.map Prod.snd).flatten ++ [Event.scene_notify state_change.Global])

/-- `basic_manual_engine::draw()` (`basic_engines.hpp`, lines 81–84):
`_drawing_policy( _scene );` — the scene is a non-const member passed by
reference, so the policy may change its own state and the scene. -/
def basic_manual_engine.draw (e : basic_manual_engine) : basic_manual_engine × List Event :=
  let r := e._drawing_policy.call e._scene
  ({ _scene := r.2, _drawing_policy := r.1 }, [Event.scene_draw])

/-- The observable core of `sdst::basic_automatic_engine`: the managed manual
engine and the running condition.  A running condition receives
`const engine_t&`, whose only const accessor is `scene()`, so it is modelled
as a predicate on the scene. -/
structure auto_core where
  _engine : basic_manual_engine
  _run_condition : List particle → Bool

/-- `sdst::basic_automatic_engine<SCENE, DRAW_POLICY>` (`basic_engines.hpp`):
the core plus the three stage actions.  A stage action receives `engine_t&`;
it is modelled as a function on the observable core. -/
structure basic_automatic_engine where
  core : auto_core
  _before_update : auto_core → auto_core
  _before_draw : auto_core → auto_core
  _before_next : auto_core → auto_core

/-- The body of the `do … while` loop of `start()` (`basic_engines.hpp`,
lines 225–232): `_before_update(*this); _engine.step(); _before_draw(*this);
_engine.draw(); _before_next(*this);`. -/
def basic_automatic_engine.iteration (e : basic_automatic_engine) :
    basic_automatic_engine × List Event :=
  let c1 := e._before_update e.core
  let s := c1._engine.step
  let c2 : auto_core := { c1 with _engine := s.1 }
  let c3 := e._before_draw c2
  let d := c3._engine.draw
  let c4 : auto_core := { c3 with _engine := d.1 }
  let c5 := e._before_next c4
  ({ e with core := c5 },
   Event.hook_before_update ::
     (s.2 ++ Event.hook_before_draw :: (d.2 ++ [Event.hook_before_next])))

/-- `basic_automatic_engine::start()` (`basic_engines.hpp`, lines 223–233):
`do { … } while( _run_condition( *this ) );`, with explicit fuel.  `none`
means the loop was still running when the fuel ran out; `some (e, tr)` means
the loop terminated, with final engine `e` and event trace `tr`. -/
def basic_automatic_engine.start :
    Nat → basic_automatic_engine → Option (basic_automatic_engine × List Event)
  | 0, _ => none
  | n + 1, e =>
    let r := e.iteration
    if r.1.core._run_condition r.1.core._engine._scene then
      match basic_automatic_engine.start n r.1 with
      | none => none
      | some q => some (q.1, r.2 ++ Event.check_cond true :: q.2)
    else
      some (r.1, r.2 ++ [Event.check_cond false])

/-- `basic_automatic_engine::stop()` (`basic_engines.hpp`, lines 238–241):
`_run_condition = []( const engine_t& ){ return false; };`. -/
def basic_automatic_engine.stop (e : basic_automatic_engine) : basic_automatic_engine :=
  { e with core := { e.core with _run_condition := fun _ => false } }

/-- `basic_automatic_engine::run_condition(condition)` (`basic_engines.hpp`,
lines 213–218): replaces the running condition. -/
def basic_automatic_engine.run_condition (e : basic_automatic_engine)
    (c : List particle → Bool) : basic_automatic_engine :=
  { e with core := { e.core with _run_condition := c } }

/-- `basic_automatic_engine::run_while(condition)` (`basic_engines.hpp`,
lines 246–249): `return run_condition( condition ).start();`. -/
def basic_automatic_engine.run_while (e : basic_automatic_engine)
    (c : List particle → Bool) (fuel : Nat) :
    Option (basic_automatic_engine × List Event) :=
  (e.run_condition c).start fuel

/-- `basic_automatic_engine::run_until(condition)` (`basic_engines.hpp`,
lines 254–257): `return run_while( [&]( const engine_t& e ){ return
!condition(e); } );`. -/
def basic_automatic_engine.run_until (e : basic_automatic_engine)
    (c : List particle → Bool) (fuel : Nat) :
    Option (basic_automatic_engine × List Event) :=
  e.run_while (fun s => ! c s) fuel

/-- `basic_automatic_engine::run_while_all(property)` (`basic_engines.hpp`,
lines 263–270): `run_while` of `std::all_of` of the property over the current
scene. -/
def basic_automatic_engine.run_while_all (e : basic_automatic_engine)
    (property : particle → Bool) (fuel : Nat) :
    Option (basic_automatic_engine × List Event) :=
  e.run_while (fun s => s.all property) fuel

/-- `basic_automatic_engine::run_while_any(property)` (`basic_engines.hpp`,
lines 276–283): `run_while` of `std::any_of` of the property over the current
scene. -/
def basic_automatic_engine.run_while_any (e : basic_automatic_engine)
    (property : particle → Bool) (fuel : Nat) :
    Option (basic_automatic_engine × List Event) :=
  e.run_while (fun s => s.any property) fuel

/-- `basic_automatic_engine::run_until_all(property)` (`basic_engines.hpp`,
lines 289–296): `run_until` of `std::all_of` of the property over the current
scene. -/
def basic_automatic_engine.run_until_all (e : basic_automatic_engine)
    (property : particle → Bool) (fuel : Nat) :
    Option (basic_automatic_engine × List Event) :=
  e.run_until (fun s => s.all property) fuel

/-- `basic_automatic_engine::run_until_any(property)` (`basic_engines.hpp`,
lines 302–309): `run_until` of `std::any_of` of the property over the current
scene. -/
def basic_automatic_engine.run_until_any (e : basic_automatic_engine)
    (property : particle → Bool) (fuel : Nat) :
    Option (basic_automatic_engine × List Event) :=
  e.run_until (fun s => s.any property) fuel

/-- `sdst::shared_policy<POLICY>` (`shared_policy.hpp`): a `std::shared_ptr`
to one underlying policy instance.  The heap of shared policy instances is
modelled as a store `Nat → Int` of member states indexed by pointer value;
`behavior` is the underlying policy's `operator()` on (state, payload), shared
verbatim by every copy of the handle. -/
structure shared_policy where
  behavior : Int → Int → Int × Int
  _ptr : Nat

/-- The `operator()(ARGS&&...)` of `shared_policy`: `(*_ptr)( args... )` —
reads the pointee's state, invokes the underlying policy, writes the new state
back through the pointer. -/
def shared_policy.call (h : shared_policy) (store : Nat → Int) (d : Int) :
    (Nat → Int) × Int :=
  let r := h.behavior (store h._ptr) d
  (Function.update store h._ptr r.1, r.2)

/-- The state of the pointee as observed through a handle. -/
def shared_policy.observe (h : shared_policy) (store : Nat → Int) : Int :=
  store h._ptr

/-- Copying a `shared_policy` copies the `std::shared_ptr`: the copy points at
the same instance. -/
def shared_policy.copy (h : shared_policy) : shared_policy :=
  h

/-- A particle whose evolution policy is a `shared_policy` handle,
i.e. the instantiation `sdst::particle<DATA, sdst::shared_policy<P>, DRAW>`:
`erase_state` stores the handle by value, but the handle points into the
shared store.  (The draw policy is irrelevant to the sharing claims and is
omitted from this instantiation.) -/
structure sparticle where
  _data : Int
  _evolution_policy : shared_policy

/-- `update()` of such a particle: `_evolution_policy( _data )` forwards
through the shared handle into the store. -/
def sparticle.update (p : sparticle) (store : Nat → Int) :
    sparticle × (Nat → Int) :=
  let r := p._evolution_policy.call store p._data
  ({ p with _data := r.2 }, r.1)


/-! ## Concrete instances and auxiliary definitions used by the claim theorems -/

/-- A stated evolution policy: the payload call adds 1 to the member state and
10 to the payload; the `state_change` call adds 100 to the member state, so a
dispatched notification is visible in the state. -/
def C1evo : Policy Int :=
  { invoke := fun s d => (s + 1, d + 10), notifyFn := some (fun s _ => s + 100), st := 0 }

/-- A stated draw policy: the payload call leaves everything unchanged; the
`state_change` call adds 100 to the member state. -/
def C1draw : Policy Int :=
  { invoke := fun s d => (s, d), notifyFn := some (fun s _ => s + 100), st := 0 }

/-- A concrete particle whose evolution and draw policies are both stated. -/
def C1p : particle :=
  { _data := 0, _evolution_policy := ⟨C1evo⟩, _draw_policy := ⟨C1draw⟩ }

/-- A non-stated policy: no `operator()(state_change)` overload. -/
def C3pol : Policy Int :=
  { invoke := fun s d => (s + 1, d + 1), notifyFn := none, st := 7 }

/-- The final engine of a run, when the run terminated. -/
def terminal_state (r : Option (basic_automatic_engine × List Event)) :
    Option basic_automatic_engine :=
  r.map Prod.fst

/-- The number of evaluations of the running condition in a terminated run's
trace; the loop being a post-condition loop, this is the number of iterations
executed. -/
def iteration_checks (r : Option (basic_automatic_engine × List Event)) : Option Nat :=
  r.map (fun q => q.2.countP (fun ev => match ev with
    | Event.check_cond _ => true
    | _ => false))

/-- A concrete automatic engine used to witness run-structure theorems: one
particle, identity stage actions, running condition constantly false. -/
def C4e : basic_automatic_engine :=
  { core := { _engine := { _scene := [C1p], _drawing_policy := ⟨{ invoke := fun s sc => (s, sc), notifyFn := none, st := 0 }⟩ },
              _run_condition := fun _ => false },
    _before_update := id, _before_draw := id, _before_next := id }

/-- The expected result of running `C4e.start 1`: one full iteration, then a
single failed condition check. -/
def C4r : basic_automatic_engine × List Event :=
  ((C4e.iteration).1, (C4e.iteration).2 ++ [Event.check_cond false])

/-- A shared policy instance: the pointee accumulates the payloads it is
invoked with. -/
def C6h : shared_policy :=
  { behavior := fun s d => (s + d, d), _ptr := 0 }

/-- A concrete invocation sequence through two copies of `C6h`. -/
def C6seq : List (shared_policy × Int) :=
  [(C6h.copy, 5), (C6h.copy, 3)]

/-- A draw policy that changes the payload it receives: `operator()(data_t&)`
increments the payload. -/
def C8draw : Policy Int :=
  { invoke := fun s d => (s, d + 1), notifyFn := none, st := 0 }

/-- A particle whose draw policy mutates the payload through the mutable
reference the non-const `draw()` passes. -/
def C8p : particle :=
  { _data := 0,
    _evolution_policy := ⟨{ invoke := fun s d => (s, d), notifyFn := none, st := 0 }⟩,
    _draw_policy := ⟨C8draw⟩ }

/-- A particle whose draw policy reads but does not change the payload. -/
def C8q : particle :=
  { _data := 4,
    _evolution_policy := ⟨{ invoke := fun s d => (s, d), notifyFn := none, st := 0 }⟩,
    _draw_policy := ⟨{ invoke := fun s d => (s + d, d), notifyFn := none, st := 0 }⟩ }

/-- A stage action preserves the observable state the quantified run helpers
rely on when, on an empty scene, it keeps the scene empty, keeps the running
condition, and keeps the collection drawing policy's payload call. -/
def preserves_empty_run_state (hook : auto_core → auto_core) : Prop :=
  ∀ c : auto_core, c._engine._scene = [] →
    (hook c)._engine._scene = []
    ∧ (hook c)._run_condition = c._run_condition
    ∧ (hook c)._engine._drawing_policy._policy.invoke = c._engine._drawing_policy._policy.invoke

/-- Invariant carried through the loop on a never-populated scene: the scene
is empty, the running condition is the fixed predicate `φ` installed by the
quantified run helper, and the collection drawing policy's payload call is the
fixed function `inv0`. -/
def EmptyInv (inv0 : Int → List particle → Int × List particle)
    (φ : List particle → Bool) (c : auto_core) : Prop :=
  c._engine._scene = []
  ∧ c._run_condition = φ
  ∧ c._engine._drawing_policy._policy.invoke = inv0

/-- A concrete automatic engine whose stage actions are the identity, used to
witness the `stop()` theorem. -/
def C7e : basic_automatic_engine :=
  { core := { _engine := { _scene := [],
                           _drawing_policy := ⟨{ invoke := fun s sc => (s, sc), notifyFn := none, st := 3 }⟩ },
              _run_condition := fun _ => true },
    _before_update := id, _before_draw := id, _before_next := id }

/-- A concrete automatic engine with an empty scene, identity stage actions
and a collection drawing policy that renders without touching the scene. -/
def C10e : basic_automatic_engine :=
  { core := { _engine := { _scene := [],
                           _drawing_policy := ⟨{ invoke := fun st sc => (st, sc), notifyFn := none, st := 0 }⟩ },
              _run_condition := fun _ => true },
    _before_update := id, _before_draw := id, _before_next := id }


/-! ## Helper lemmas -/

theorem flatten_map_singleton {β γ : Type} (f : β → γ) (l : List β) :
    (l.map (fun b => [f b])).flatten = l.map f := by
  induction l with
  | nil => rfl
  | cons a t ih => simp [ih]

/-- The trace of one `step()`: each particle's payload, invoked once, in
traversal order, followed by the single `global` dispatch to the collection
drawing policy. -/
theorem step_trace (e : basic_manual_engine) :
    (e.step).2 = e._scene.map (fun p => Event.evo_invoke p._data)
      ++ [Event.scene_notify state_change.Global] := by
  unfold basic_manual_engine.step
  simp only [List.map_map]
  rw [show (Prod.snd ∘ particle.update) = fun p => [Event.evo_invoke p._data] from rfl,
    flatten_map_singleton]

theorem notify_preserves_invoke {α : Type} (w : erase_state α) (c : state_change) :
    (w.notify c)._policy.invoke = w._policy.invoke := by
  unfold erase_state.notify
  cases hn : w._policy.notifyFn <;> simp [hn]

theorem notify_preserves_notifyFn {α : Type} (w : erase_state α) (c : state_change) :
    (w.notify c)._policy.notifyFn = w._policy.notifyFn := by
  unfold erase_state.notify
  cases hn : w._policy.notifyFn <;> simp [hn]

/-! ## Claim theorems -/

/-- C1 (code bug): on the concrete particle `C1p`, whose evolution and draw
policies are both stated (their `state_change` overload adds 100 to the member
state), the non-const `particle::update()` — the overload selected when
`basic_manual_engine::step` iterates its non-const scene — performs exactly one
call, the evolution policy's payload invocation, and dispatches no `Local`
notification: the evolution state shows only the payload call (1, not 101),
and the draw policy is completely untouched, contradicting the claim that
`update()` dispatches a `Local` notification to each wrapper. -/
theorem update_dispatches_no_local_notifications :
    C1p._evolution_policy._policy.stated = true
    ∧ C1p._draw_policy._policy.stated = true
    ∧ (C1p.update).2 = [Event.evo_invoke 0]
    ∧ (C1p.update).2.count (Event.evo_notify state_change.Local) = 0
    ∧ (C1p.update).2.count (Event.draw_notify state_change.Local) = 0
    ∧ (C1p.update).1._evolution_policy._policy.st = 1
    ∧ (C1p.update).1._draw_policy = C1p._draw_policy :=
  ⟨rfl, rfl, rfl, rfl, rfl, rfl, rfl⟩

/-- C2: one `step()` of the manual engine updates each particle of the scene
exactly once, in traversal order and with no interleaving — the resulting
scene is the element-wise update of the old one and the trace lists the
per-particle invocations in scene order — and after the full pass dispatches
exactly one `Global` notification to the collection drawing-policy wrapper,
for every scene size including the empty scene. -/
theorem step_updates_each_particle_once_then_one_global (e : basic_manual_engine) :
    (e.step).1._scene = e._scene.map (fun p => (p.update).1)
    ∧ (e.step).2 = e._scene.map (fun p => Event.evo_invoke p._data)
        ++ [Event.scene_notify state_change.Global]
    ∧ (e.step).2.count (Event.scene_notify state_change.Global) = 1
    ∧ (e.step).1._drawing_policy = e._drawing_policy.notify state_change.Global := by
  refine ⟨?_, step_trace e, ?_, rfl⟩
  · unfold basic_manual_engine.step
    simp [List.map_map]
  · rw [step_trace]
    rw [List.count_append]
    have h0 : (e._scene.map (fun p => Event.evo_invoke p._data)).count
        (Event.scene_notify state_change.Global) = 0 := by
      rw [List.count_eq_zero]
      intro hmem
      rcases List.mem_map.mp hmem with ⟨p, _, hp⟩
      exact Event.noConfusion hp
    rw [h0]
    rfl

/-- C3: invoking the `state_change` entry point of an `erase_state` wrapper
around a non-stated policy (one for which `policy(state_change)` is not a
valid call) is a no-op: the wrapper, and in particular the wrapped policy's
state, is returned unchanged, and no call is forwarded — for a non-stated
policy there is no notification handler to forward to. -/
theorem notify_on_non_stated_policy_is_noop {α : Type} (w : erase_state α)
    (c : state_change) (h : w._policy.stated = false) :
    w.notify c = w := by
  unfold erase_state.notify
  unfold Policy.stated at h
  cases hn : w._policy.notifyFn with
  | none => rfl
  | some f => rw [hn] at h; exact absurd h (by simp)

theorem notify_on_non_stated_policy_is_noop_witness :
    (⟨C3pol⟩ : erase_state Int)._policy.stated = false
    ∧ (⟨C3pol⟩ : erase_state Int).notify state_change.Local = ⟨C3pol⟩ :=
  ⟨rfl, notify_on_non_stated_policy_is_noop ⟨C3pol⟩ state_change.Local rfl⟩

/-- C5: `run_until(p)` is `run_while` of the pointwise negation of `p`
(`basic_engines.hpp` line 256 builds exactly the lambda `!condition(e)`), so
for the same engine, fuel and hence the same deterministic sequence of
per-iteration state changes, the two runs coincide: same optional result,
same terminal engine, and the same number of running-condition checks,
i.e. the same number of iterations. -/
theorem run_until_behaves_as_run_while_not (e : basic_automatic_engine)
    (c : List particle → Bool) (fuel : Nat) :
    e.run_until c fuel = e.run_while (fun s => ! c s) fuel
    ∧ terminal_state (e.run_until c fuel)
        = terminal_state (e.run_while (fun s => ! c s) fuel)
    ∧ iteration_checks (e.run_until c fuel)
        = iteration_checks (e.run_while (fun s => ! c s) fuel) :=
  ⟨rfl, rfl, rfl⟩

/-- The trace of one loop body: the before-update action, the step trace, the
before-draw action, the draw trace, the before-next action — in that order. -/
theorem iteration_trace (e : basic_automatic_engine) :
    (e.iteration).2
      = Event.hook_before_update
        :: (((e._before_update e.core)._engine._scene.map (fun p => Event.evo_invoke p._data)
              ++ [Event.scene_notify state_change.Global])
            ++ Event.hook_before_draw :: Event.scene_draw :: [Event.hook_before_next]) := by
  have h1 : (e.iteration).2
      = Event.hook_before_update
        :: (((e._before_update e.core)._engine.step).2
            ++ Event.hook_before_draw :: ([Event.scene_draw] ++ [Event.hook_before_next])) := rfl
  rw [h1, step_trace]
  rfl

theorem check_cond_not_mem_iteration (e : basic_automatic_engine) (b : Bool) :
    Event.check_cond b ∉ (e.iteration).2 := by
  rw [iteration_trace]
  simp

/-- Unfolding of one round of the `do … while` loop. -/
theorem start_succ (e : basic_automatic_engine) (n : Nat) :
    e.start (n + 1)
      = if (e.iteration).1.core._run_condition (e.iteration).1.core._engine._scene then
          match (e.iteration).1.start n with
          | none => none
          | some q => some (q.1, (e.iteration).2 ++ Event.check_cond true :: q.2)
        else
          some ((e.iteration).1, (e.iteration).2 ++ [Event.check_cond false]) := rfl

/-- Every terminated run stops at the first failed condition check: the trace
contains exactly one `check_cond false`, and it is the last event. -/
theorem start_checks_structure (n : Nat) :
    ∀ (e : basic_automatic_engine) (r : basic_automatic_engine × List Event),
      e.start n = some r →
        r.2.count (Event.check_cond false) = 1
        ∧ r.2.getLast? = some (Event.check_cond false) := by
  induction n with
  | zero =>
    intro e r hr
    exact Option.noConfusion hr
  | succ n ih =>
    intro e r hr
    rw [start_succ] at hr
    split at hr
    · split at hr
      · exact Option.noConfusion hr
      · rename_i q heq
        obtain ⟨hcount, hlast⟩ := ih (e.iteration).1 q heq
        obtain rfl : r = (q.1, (e.iteration).2 ++ Event.check_cond true :: q.2) :=
          (Option.some.inj hr).symm
        constructor
        · show ((e.iteration).2 ++ Event.check_cond true :: q.2).count
              (Event.check_cond false) = 1
          rw [List.count_append,
            List.count_eq_zero.mpr (check_cond_not_mem_iteration e false)]
          simp [List.count_cons, hcount]
        · show ((e.iteration).2 ++ Event.check_cond true :: q.2).getLast?
              = some (Event.check_cond false)
          rw [show Event.check_cond true :: q.2 = [Event.check_cond true] ++ q.2 from rfl,
            List.getLast?_append, List.getLast?_append, hlast]
          rfl
    · obtain rfl : r = ((e.iteration).1, (e.iteration).2 ++ [Event.check_cond false]) :=
        (Option.some.inj hr).symm
      constructor
      · show ((e.iteration).2 ++ [Event.check_cond false]).count (Event.check_cond false) = 1
        rw [List.count_append,
          List.count_eq_zero.mpr (check_cond_not_mem_iteration e false)]
        rfl
      · show ((e.iteration).2 ++ [Event.check_cond false]).getLast?
            = some (Event.check_cond false)
        rw [List.getLast?_concat]


/-- C4: for every automatic engine, every terminated run of `start()` executes
its phases in the order before-update action, per-particle updates and the
`global` dispatch of `step()`, before-draw action, `draw()`, before-next
action, and only then evaluates the running condition: the loop body's trace
has exactly that shape; any terminated run's trace begins with one full loop
body followed by a condition check — so at least one full iteration executes
before the condition is first evaluated, even when the condition is initially
false — and the run stops at the first failed check, which is the trace's
last event, all earlier checks having succeeded. -/
theorem start_phase_order_and_postcondition_loop (e : basic_automatic_engine) (n : Nat)
    (r : basic_automatic_engine × List Event) (hr : e.start (n + 1) = some r) :
    (e.iteration).2
      = Event.hook_before_update
        :: (((e._before_update e.core)._engine._scene.map (fun p => Event.evo_invoke p._data)
              ++ [Event.scene_notify state_change.Global])
            ++ Event.hook_before_draw :: Event.scene_draw :: [Event.hook_before_next])
    ∧ (∃ b rest, r.2 = (e.iteration).2 ++ Event.check_cond b :: rest)
    ∧ r.2.count (Event.check_cond false) = 1
    ∧ r.2.getLast? = some (Event.check_cond false) := by
  refine ⟨iteration_trace e, ?_, (start_checks_structure (n + 1) e r hr).1,
    (start_checks_structure (n + 1) e r hr).2⟩
  rw [start_succ] at hr
  split at hr
  · split at hr
    · exact Option.noConfusion hr
    · rename_i q heq
      obtain rfl : r = (q.1, (e.iteration).2 ++ Event.check_cond true :: q.2) :=
        (Option.some.inj hr).symm
      exact ⟨true, q.2, rfl⟩
  · obtain rfl : r = ((e.iteration).1, (e.iteration).2 ++ [Event.check_cond false]) :=
      (Option.some.inj hr).symm
    exact ⟨false, [], rfl⟩

theorem start_phase_order_and_postcondition_loop_witness :
    C4e.start 1 = some C4r
    ∧ C4r.2.count (Event.check_cond false) = 1
    ∧ C4r.2.getLast? = some (Event.check_cond false) :=
  ⟨rfl, (start_phase_order_and_postcondition_loop C4e 0 C4r rfl).2.2.1,
    (start_phase_order_and_postcondition_loop C4e 0 C4r rfl).2.2.2⟩

/-- Stage actions that do not replace the running condition let the loop body
pass it through unchanged. -/
theorem iteration_preserves_run_condition (e : basic_automatic_engine)
    (hbu : ∀ c, (e._before_update c)._run_condition = c._run_condition)
    (hbd : ∀ c, (e._before_draw c)._run_condition = c._run_condition)
    (hbn : ∀ c, (e._before_next c)._run_condition = c._run_condition) :
    (e.iteration).1.core._run_condition = e.core._run_condition := by
  simp only [basic_automatic_engine.iteration, hbu, hbd, hbn]

/-- With a constantly-false running condition (as installed by `stop()`), a
run performs exactly one full loop body and stops at the first check. -/
theorem start_terminates_next_check_when_condition_false (e : basic_automatic_engine)
    (n : Nat)
    (hbu : ∀ c, (e._before_update c)._run_condition = c._run_condition)
    (hbd : ∀ c, (e._before_draw c)._run_condition = c._run_condition)
    (hbn : ∀ c, (e._before_next c)._run_condition = c._run_condition)
    (hrc : ∀ s, e.core._run_condition s = false) :
    e.start (n + 1) = some ((e.iteration).1, (e.iteration).2 ++ [Event.check_cond false]) := by
  have hc : (e.iteration).1.core._run_condition (e.iteration).1.core._engine._scene = false := by
    rw [iteration_preserves_run_condition e hbu hbd hbn]
    exact hrc _
  rw [start_succ, hc]
  simp

/-- C7: `stop()` is a total operation on engines — legal in any state, before,
during or after a run — and idempotent: a second `stop()` leaves the engine
exactly as the first.  After `stop()` the running condition evaluates to
`false` on every scene, so (with stage actions that do not replace the running
condition) a run of the stopped engine completes the phases of one full loop
body and terminates at the next condition check. -/
theorem stop_always_legal_idempotent_terminates (e : basic_automatic_engine) (n : Nat)
    (hbu : ∀ c, (e._before_update c)._run_condition = c._run_condition)
    (hbd : ∀ c, (e._before_draw c)._run_condition = c._run_condition)
    (hbn : ∀ c, (e._before_next c)._run_condition = c._run_condition) :
    e.stop.stop = e.stop
    ∧ (∀ s, (e.stop).core._run_condition s = false)
    ∧ (e.stop).start (n + 1)
        = some (((e.stop).iteration).1, ((e.stop).iteration).2 ++ [Event.check_cond false]) := by
  refine ⟨rfl, fun s => rfl, ?_⟩
  exact start_terminates_next_check_when_condition_false e.stop n hbu hbd hbn (fun s => rfl)

theorem stop_always_legal_idempotent_terminates_witness :
    (∀ c, (C7e._before_update c)._run_condition = c._run_condition)
    ∧ C7e.stop.stop = C7e.stop
    ∧ C7e.stop.start 1
        = some ((C7e.stop.iteration).1, (C7e.stop.iteration).2 ++ [Event.check_cond false]) :=
  ⟨fun _ => rfl,
    (stop_always_legal_idempotent_terminates C7e 0 (fun _ => rfl) (fun _ => rfl)
      (fun _ => rfl)).1,
    (stop_always_legal_idempotent_terminates C7e 0 (fun _ => rfl) (fun _ => rfl)
      (fun _ => rfl)).2.2⟩


/-- Invoking a shared policy through any sequence of copies of one handle
threads every call through the single pointee: the state observed afterwards
is the fold of the underlying policy's payload call over the sequence. -/
theorem observe_after_calls (h : shared_policy) (seq : List (shared_policy × Int)) :
    ∀ store : Nat → Int, (∀ q ∈ seq, q.1 = h.copy) →
      h.observe (seq.foldl (fun st qx => (qx.1.call st qx.2).1) store)
        = seq.foldl (fun s qx => (h.behavior s qx.2).1) (h.observe store) := by
  induction seq with
  | nil => intro store _; rfl
  | cons a t ih =>
    intro store hseq
    have ha : a.1 = h.copy := hseq a (List.mem_cons_self a t)
    simp only [List.foldl_cons]
    rw [ha]
    rw [ih ((shared_policy.call h.copy store a.2).1)
      (fun q hq => hseq q (List.mem_cons_of_mem a hq))]
    have hstep : h.observe ((shared_policy.call h.copy store a.2).1)
        = (h.behavior (h.observe store) a.2).1 := by
      simp [shared_policy.copy, shared_policy.call, shared_policy.observe]
    rw [hstep]

/-- C6: a `shared_policy` wrapping one underlying instance and copied into
any number of holders denotes exactly one logical instance: after an arbitrary
sequence of invocations, each through an arbitrary copy of the handle, any two
copies observe the identical resulting internal state, and that state is the
fold of the underlying policy's call over the whole invocation sequence —
every call, through whichever copy, hit the same single pointee. -/
theorem shared_policy_copies_denote_one_instance (h g1 g2 : shared_policy)
    (seq : List (shared_policy × Int)) (store : Nat → Int)
    (hg1 : g1 = h.copy) (hg2 : g2 = h.copy)
    (hseq : ∀ q ∈ seq, q.1 = h.copy) :
    g1.observe (seq.foldl (fun st qx => (qx.1.call st qx.2).1) store)
      = g2.observe (seq.foldl (fun st qx => (qx.1.call st qx.2).1) store)
    ∧ g1.observe (seq.foldl (fun st qx => (qx.1.call st qx.2).1) store)
      = seq.foldl (fun s qx => (h.behavior s qx.2).1) (h.observe store) := by
  constructor
  · rw [hg1, hg2]
  · rw [hg1]
    exact observe_after_calls h seq store hseq

theorem shared_policy_copies_denote_one_instance_witness :
    (∀ q ∈ C6seq, q.1 = C6h.copy)
    ∧ C6h.copy.observe (C6seq.foldl (fun st qx => (qx.1.call st qx.2).1) (fun _ => 0))
        = C6seq.foldl (fun s qx => (C6h.behavior s qx.2).1) (C6h.observe (fun _ => 0)) := by
  have hseq : ∀ q ∈ C6seq, q.1 = C6h.copy := by
    intro q hq
    simp only [C6seq, List.mem_cons, List.not_mem_nil, or_false] at hq
    rcases hq with rfl | rfl <;> rfl
  exact ⟨hseq, (shared_policy_copies_denote_one_instance C6h C6h.copy C6h.copy C6seq
    (fun _ => 0) rfl rfl hseq).2⟩

/-- C8 counterexample: at the concrete particle `C8p`, whose draw policy's
`operator()(data_t&)` increments the payload it receives, the non-const
`particle::draw()` changes the payload — `_draw_policy( _data )` passes the
payload by mutable reference, so "the payload is unchanged by draw()" is
false as stated. -/
theorem draw_changes_payload_counterexample :
    ¬ ((C8p.draw).1._data = C8p._data) := by decide

/-- C8 (amended): for every particle — payload-mutating draw policies
included — `draw()` invokes the draw-policy wrapper on the payload and fires
no notification of any kind, and the evolution policy is untouched; the const
overload gives read-only access and cannot change the particle.  In the
non-const overload the payload is passed by mutable reference: the payload
after `draw()` is exactly what the draw policy's payload call leaves in its
argument, so it is unchanged exactly when the draw policy leaves its argument
unchanged, and in particular unchanged for every policy that never changes
its argument. -/
theorem draw_invokes_policy_without_notifications (p : particle) :
    (p.draw).2 = [Event.draw_invoke p._data]
    ∧ (∀ c, Event.draw_notify c ∉ (p.draw).2)
    ∧ (∀ c, Event.evo_notify c ∉ (p.draw).2)
    ∧ (∀ c, Event.scene_notify c ∉ (p.draw).2)
    ∧ (p.draw).1._evolution_policy = p._evolution_policy
    ∧ p.draw_const = [Event.draw_invoke p._data]
    ∧ (p.draw).1._data
        = (p._draw_policy._policy.invoke p._draw_policy._policy.st p._data).2
    ∧ ((∀ st d, (p._draw_policy._policy.invoke st d).2 = d) →
        (p.draw).1._data = p._data) := by
  refine ⟨rfl, ?_, ?_, ?_, rfl, rfl, rfl, ?_⟩
  · intro c
    simp [particle.draw]
  · intro c
    simp [particle.draw]
  · intro c
    simp [particle.draw]
  · intro h
    show (p._draw_policy._policy.invoke p._draw_policy._policy.st p._data).2 = p._data
    exact h _ _

theorem draw_invokes_policy_without_notifications_witness :
    ((∀ c, Event.draw_notify c ∉ (C8p.draw).2) ∧ (C8p.draw).2 = [Event.draw_invoke 0])
    ∧ (∀ st d, (C8q._draw_policy._policy.invoke st d).2 = d)
    ∧ (C8q.draw).1._data = C8q._data
    ∧ (C8q.draw).2 = [Event.draw_invoke 4] := by
  have h : ∀ st d, (C8q._draw_policy._policy.invoke st d).2 = d := fun st d => rfl
  exact ⟨⟨(draw_invokes_policy_without_notifications C8p).2.1,
      (draw_invokes_policy_without_notifications C8p).1⟩, h,
    (draw_invokes_policy_without_notifications C8q).2.2.2.2.2.2.2 h,
    (draw_invokes_policy_without_notifications C8q).1⟩

/-- C9: each particle owns by-value copies of its policies, so two particles
constructed from the same policy values evolve independently: after one
`step()` over a two-particle scene built from the same evolution policy value
`v` and draw policy value `w`, each particle is exactly its own element-wise
update, and the second particle's evolution state is one application of `v`'s
payload call started from `v`'s original state `v.st` — not from the state the
first particle's update produced — and its draw-policy state is still `w.st`.
Sharing occurs only through a `shared_policy` handle: for two particles
holding the same handle, a mutation made through the first particle's update
is observed through the second particle's handle. -/
theorem by_value_policies_are_independent_sharing_only_via_shared_policy
    (v w : Policy Int) (d1 d2 : Int) (dp : erase_state (List particle))
    (h : shared_policy) (store : Nat → Int) :
    ((basic_manual_engine.mk
        [particle.mk d1 (erase_state.mk v) (erase_state.mk w),
         particle.mk d2 (erase_state.mk v) (erase_state.mk w)] dp).step).1._scene
      = [(particle.mk d1 (erase_state.mk v) (erase_state.mk w)).update.1,
         (particle.mk d2 (erase_state.mk v) (erase_state.mk w)).update.1]
    ∧ ((particle.mk d2 (erase_state.mk v) (erase_state.mk w)).update.1)._evolution_policy._policy.st
        = (v.invoke v.st d2).1
    ∧ ((particle.mk d2 (erase_state.mk v) (erase_state.mk w)).update.1)._draw_policy._policy.st
        = w.st
    ∧ (sparticle.mk d2 h)._evolution_policy.observe (((sparticle.mk d1 h).update store).2)
        = (h.behavior (h.observe store) d1).1 := by
  refine ⟨rfl, rfl, rfl, ?_⟩
  simp [sparticle.update, shared_policy.call, shared_policy.observe]


theorem hook_preserves_inv (inv0 : Int → List particle → Int × List particle)
    (φ : List particle → Bool) (hook : auto_core → auto_core)
    (hp : preserves_empty_run_state hook) (c : auto_core)
    (hinv : EmptyInv inv0 φ c) : EmptyInv inv0 φ (hook c) := by
  obtain ⟨hs, hr, hi⟩ := hinv
  obtain ⟨hs2, hr2, hi2⟩ := hp c hs
  exact ⟨hs2, hr2.trans hr, hi2.trans hi⟩

theorem step_preserves_inv (inv0 : Int → List particle → Int × List particle)
    (φ : List particle → Bool) (c : auto_core) (hinv : EmptyInv inv0 φ c) :
    EmptyInv inv0 φ { c with _engine := (c._engine.step).1 } := by
  obtain ⟨hs, hr, hi⟩ := hinv
  refine ⟨?_, hr, ?_⟩
  · show (c._engine._scene.map particle.update).map Prod.fst = []
    rw [hs]
    rfl
  · show (c._engine._drawing_policy.notify state_change.Global)._policy.invoke = inv0
    rw [notify_preserves_invoke]
    exact hi

theorem draw_preserves_inv (inv0 : Int → List particle → Int × List particle)
    (φ : List particle → Bool) (c : auto_core) (hinv : EmptyInv inv0 φ c)
    (hdp0 : ∀ st, (inv0 st []).2 = []) :
    EmptyInv inv0 φ { c with _engine := (c._engine.draw).1 } := by
  obtain ⟨hs, hr, hi⟩ := hinv
  refine ⟨?_, hr, ?_⟩
  · show (c._engine._drawing_policy._policy.invoke
        c._engine._drawing_policy._policy.st c._engine._scene).2 = []
    rw [hs, hi]
    exact hdp0 _
  · exact hi

theorem iteration_empty_invariant (inv0 : Int → List particle → Int × List particle)
    (φ : List particle → Bool) (e : basic_automatic_engine)
    (hinv : EmptyInv inv0 φ e.core)
    (hdp0 : ∀ st, (inv0 st []).2 = [])
    (hbu : preserves_empty_run_state e._before_update)
    (hbd : preserves_empty_run_state e._before_draw)
    (hbn : preserves_empty_run_state e._before_next) :
    EmptyInv inv0 φ (e.iteration).1.core := by
  have h1 := hook_preserves_inv inv0 φ e._before_update hbu e.core hinv
  have h2 := step_preserves_inv inv0 φ (e._before_update e.core) h1
  have h3 := hook_preserves_inv inv0 φ e._before_draw hbd _ h2
  have h4 := draw_preserves_inv inv0 φ
    (e._before_draw { e._before_update e.core with
      _engine := ((e._before_update e.core)._engine.step).1 }) h3 hdp0
  have h5 := hook_preserves_inv inv0 φ e._before_next hbn _ h4
  exact h5

/-- On an engine satisfying the empty-scene invariant with a predicate that is
true on the empty scene, the loop never reaches a failed check: `start` runs
out of any amount of fuel. -/
theorem start_none_when_condition_vacuously_true
    (inv0 : Int → List particle → Int × List particle)
    (φ : List particle → Bool) (hφ : φ [] = true)
    (hdp0 : ∀ st, (inv0 st []).2 = []) :
    ∀ (n : Nat) (e : basic_automatic_engine),
      EmptyInv inv0 φ e.core →
      preserves_empty_run_state e._before_update →
      preserves_empty_run_state e._before_draw →
      preserves_empty_run_state e._before_next →
      e.start n = none := by
  intro n
  induction n with
  | zero => intro e _ _ _ _; rfl
  | succ n ih =>
    intro e hinv hbu hbd hbn
    have hit := iteration_empty_invariant inv0 φ e hinv hdp0 hbu hbd hbn
    have hc : (e.iteration).1.core._run_condition (e.iteration).1.core._engine._scene
        = true := by
      rw [hit.2.1, hit.1, hφ]
    rw [start_succ, hc, if_pos rfl]
    rw [ih (e.iteration).1 hit hbu hbd hbn]

/-- C10: on an empty scene that neither the stage actions nor the collection
drawing policy ever populate, the quantified run helpers degenerate: the
predicate `run_while_all` installs is `all_of` over the empty scene, which is
`true` at every check, and the one `run_until_any` installs is the negation of
`any_of` over the empty scene, which is also `true` at every check, so in both
cases `start()` keeps looping and never reaches a terminating check, whatever
the per-particle property and however much fuel the loop is given. -/
theorem run_helpers_on_empty_scene_never_terminate (e : basic_automatic_engine)
    (property : particle → Bool) (n : Nat)
    (hsc : e.core._engine._scene = [])
    (hdp : ∀ st, (e.core._engine._drawing_policy._policy.invoke st []).2 = [])
    (hbu : preserves_empty_run_state e._before_update)
    (hbd : preserves_empty_run_state e._before_draw)
    (hbn : preserves_empty_run_state e._before_next) :
    (([] : List particle).all property = true)
    ∧ (([] : List particle).any property = false)
    ∧ e.run_while_all property n = none
    ∧ e.run_until_any property n = none := by
  refine ⟨rfl, rfl, ?_, ?_⟩
  · exact start_none_when_condition_vacuously_true
      e.core._engine._drawing_policy._policy.invoke (fun s => s.all property) rfl hdp n
      (e.run_condition (fun s => s.all property)) ⟨hsc, rfl, rfl⟩ hbu hbd hbn
  · exact start_none_when_condition_vacuously_true
      e.core._engine._drawing_policy._policy.invoke (fun s => ! s.any property) rfl hdp n
      (e.run_condition (fun s => ! s.any property)) ⟨hsc, rfl, rfl⟩ hbu hbd hbn

theorem run_helpers_on_empty_scene_never_terminate_witness :
    C10e.core._engine._scene = ([] : List particle)
    ∧ preserves_empty_run_state C10e._before_update
    ∧ C10e.run_while_all (fun _ => true) 2 = none
    ∧ C10e.run_until_any (fun _ => true) 2 = none := by
  have hp : preserves_empty_run_state C10e._before_update :=
    fun c hc => ⟨hc, rfl, rfl⟩
  have h := run_helpers_on_empty_scene_never_terminate C10e (fun _ => true) 2 rfl
    (fun _ => rfl) (fun c hc => ⟨hc, rfl, rfl⟩) (fun c hc => ⟨hc, rfl, rfl⟩)
    (fun c hc => ⟨hc, rfl, rfl⟩)
  exact ⟨rfl, hp, h.2.2.1, h.2.2.2⟩

end Stardust
